import Mathlib

/-
Verification development for the Modern-AlChemy artificial-chemistry core.

The Rust sources embedded here:
  src/src/lambda.rs  : LambdaParticle, AlchemyCollider, reduce_with_limit,
                       has_two_args, is_truthy, uses_both_arguments,
                       recursive_collide, nonrecursive_collide, collide.
  src/src/soup.rs    : the generic Soup and Soup::react.
  src/src/analysis.rs: LambdaSoup::jacard_index.

The lambda-calculus term engine itself (one HAP reduction step, term size,
alpha-equivalence, free-variable detection, church numerals, the church
equality combinator) lives in the external lambda_calculus crate and is an
external collaborator of the core.  It is embedded as a parameter record
TermOps: every theorem about the collider is proved for an arbitrary
instance of the collaborator interface, and concrete instances are supplied
where a concrete evaluation is needed.

Machine integers (usize, u32) are modelled as Nat; Rust panics (out-of-range
indexing, gen_range on an empty range) are modelled by Option, with none
standing for the panic.
-/

/-- Lambda term with de Bruijn indices, mirroring lambda_calculus::Term:
Var(usize), Abs(Box), App(Box<(Term, Term)>).  The external library only
builds variables with index at least 1. -/
inductive Term : Type where
  | Var : Nat → Term
  | Abs : Term → Term
  | App : Term → Term → Term
deriving DecidableEq, Repr

/-- Node count of a term; a concrete stand-in for the external size measure,
used by the concrete TermOps instances below. -/
def termSize : Term → Nat
  | .Var _ => 1
  | .Abs b => 1 + termSize b
  | .App l r => 1 + termSize l + termSize r

/-- Embedding of lambda.rs has_two_args: the term is an abstraction whose
body is again an abstraction. -/
def has_two_args (expr : Term) : Bool :=
  match expr with
  | .Abs (.Abs _) => true
  | _ => false

/-- Embedding of lambda.rs is_truthy: the term has the form
lam x1 ... lam xn . var for n at least 2 (the check walks down the chain of
abstractions looking for Abs (Abs (Var _)) at the tail). -/
def is_truthy : Term → Bool
  | .Abs (.Abs (.Var _)) => true
  | .Abs body => is_truthy body
  | _ => false

/-- Embedding of lambda.rs uses_both_arguments_helper.  The Rust source
computes n == depth - 1 on usize; Nat truncated subtraction agrees with it
on every term the external library can build (variable indices are
at least 1, and depth 0 only occurs outside any abstraction). -/
def uses_both_arguments_helper : Term → Nat → Bool × Bool
  | .Abs boxed, depth => uses_both_arguments_helper boxed (depth + 1)
  | .App l r, depth =>
      let lp := uses_both_arguments_helper l depth
      let rp := uses_both_arguments_helper r depth
      (lp.1 || rp.1, lp.2 || rp.2)
  | .Var n, depth => (n == depth, n == depth - 1)

/-- Embedding of lambda.rs uses_both_arguments. -/
def uses_both_arguments (expr : Term) : Bool :=
  let p := uses_both_arguments_helper expr 0
  p.1 && p.2

/-- Embedding of the LambdaCollisionError enum of lambda.rs. -/
inductive LambdaCollisionError : Type where
  | ExceedsReductionLimit
  | NotEnoughExpressions
  | IsIdentity
  | IsParent
  | HasFreeVariables
  | ExceedsDepthLimit
  | RecursiveArgument
  | BadArgument
deriving DecidableEq, Repr

/-- Embedding of the LambdaParticle struct of lambda.rs. -/
structure LambdaParticle : Type where
  expr : Term
  recursive : Bool
deriving DecidableEq, Repr

/-- Embedding of the LambdaCollisionOk struct of lambda.rs. -/
structure LambdaCollisionOk : Type where
  results : List LambdaParticle
  reductions : List Nat
  sizes : List Nat
  left_size : Nat
  right_size : Nat
deriving DecidableEq, Repr

/-- Embedding of the AlchemyCollider struct of lambda.rs. -/
structure AlchemyCollider : Type where
  rlimit : Nat
  slimit : Nat
  disallow_recursive : Bool
  reaction_rules : List Term
  discard_copy_actions : Bool
  discard_identity : Bool
  discard_free_variable_expressions : Bool

/-- Interface of the external lambda_calculus crate as consumed by
lambda.rs (spec section 3, Term ops external collaborator).
reduceStep models expr.reduce(HAP, 1): none when the term is a normal form
(the Rust call returns 0), some of the successor term otherwise.  size,
is_isomorphic_to and has_free_variables model the homonymous Term methods;
intoChurch models n.into_church() and eqTerm the church equality
combinator eq(). -/
structure TermOps : Type where
  reduceStep : Term → Option Term
  size : Term → Nat
  is_isomorphic_to : Term → Term → Bool
  has_free_variables : Term → Bool
  intoChurch : Nat → Term
  eqTerm : Term

/-- Loop body of lambda.rs reduce_with_limit: at most fuel iterations, each
performing one HAP step (break on normal form), then checking the size of
the freshly reduced term against slimit.  Returns the step count and the
final term (the Rust original mutates expr in place and returns the count). -/
def reduceGo (ops : TermOps) (slimit : Nat) : Term → Nat → Nat →
    Except LambdaCollisionError (Nat × Term)
  | expr, 0, n => .ok (n, expr)
  | expr, fuel + 1, n =>
      match ops.reduceStep expr with
      | none => .ok (n, expr)
      | some e2 =>
          if ops.size e2 > slimit then .error .ExceedsDepthLimit
          else reduceGo ops slimit e2 fuel (n + 1)

/-- Embedding of lambda.rs reduce_with_limit. -/
def reduce_with_limit (ops : TermOps) (expr : Term) (rlimit slimit : Nat) :
    Except LambdaCollisionError (Nat × Term) :=
  reduceGo ops slimit expr rlimit 0

/-- Church true as built by lambda_calculus::data::boolean::tru():
lam t. lam f. t. -/
def true_term : Term := .Abs (.Abs (.Var 2))

/-- The identity combinator abs(Var(1)) built in nonrecursive_collide. -/
def identity_term : Term := .Abs (.Var 1)

/-- Embedding of AlchemyCollider::recursive_collide (lambda.rs).  The Rust
function asserts left.recursive; collide only routes here in that case. -/
def recursive_collide (ops : TermOps) (left right : LambdaParticle) :
    Except LambdaCollisionError LambdaCollisionOk :=
  let has_good_signature := uses_both_arguments right.expr && has_two_args right.expr
  if is_truthy right.expr || !has_good_signature then .error .BadArgument
  else
    let lt := left.expr
    let left_size := ops.size lt
    let rt := right.expr
    let right_size := ops.size rt
    match reduce_with_limit ops (.App lt rt) 32000 16000 with
    | .error e => .error e
    | .ok (n, expr) =>
        if ops.is_isomorphic_to expr true_term then
          match reduce_with_limit ops
              (.App (.App rt (ops.intoChurch 2)) (ops.intoChurch 3)) 32000 16000 with
          | .error e => .error e
          | .ok (_, expr2) =>
              match reduce_with_limit ops
                  (.App (.App ops.eqTerm expr2) (ops.intoChurch 5)) 32000 16000 with
              | .error e => .error e
              | .ok (_, expr3) =>
                  .ok { results := List.replicate 100 right
                        reductions := [n]
                        sizes := [ops.size expr3]
                        left_size := left_size
                        right_size := right_size }
        else
          .ok { results := [left]
                reductions := [n]
                sizes := [ops.size expr]
                left_size := left_size
                right_size := right_size }

/-- Per-rule loop of AlchemyCollider::nonrecursive_collide: for each rule
build ((rule lt) rt), reduce it under the configured budgets, then run the
filter chain; accumulate (particle, size, steps) triples. -/
def collideRules (ops : TermOps) (c : AlchemyCollider) (lt rt : Term) :
    List Term → Except LambdaCollisionError (List (LambdaParticle × Nat × Nat))
  | [] => .ok []
  | rule :: rest =>
      match reduce_with_limit ops (.App (.App rule lt) rt) c.rlimit c.slimit with
      | .error e => .error e
      | .ok (n, expr) =>
          let size := ops.size expr
          if n == c.rlimit then .error .ExceedsReductionLimit
          else if ops.is_isomorphic_to expr identity_term && c.discard_identity then
            .error .IsIdentity
          else if (ops.is_isomorphic_to expr lt || ops.is_isomorphic_to expr rt)
              && c.discard_copy_actions then
            .error .IsParent
          else if ops.has_free_variables expr && c.discard_free_variable_expressions then
            .error .HasFreeVariables
          else
            match collideRules ops c lt rt rest with
            | .error e => .error e
            | .ok tail => .ok ((⟨expr, false⟩, size, n) :: tail)

/-- Embedding of AlchemyCollider::nonrecursive_collide (lambda.rs).  Note
the source zips the bookkeeping tuples as (expr, size, n) but then feeds
t.1 (the size) into reductions and t.2 (the step count) into sizes; the
embedding reproduces that faithfully. -/
def nonrecursive_collide (ops : TermOps) (c : AlchemyCollider)
    (left right : LambdaParticle) : Except LambdaCollisionError LambdaCollisionOk :=
  let lt := left.expr
  let rt := right.expr
  if right.recursive then .error .RecursiveArgument
  else
    match collideRules ops c lt rt c.reaction_rules with
    | .error e => .error e
    | .ok triples =>
        .ok { results := triples.map (fun t => t.1)
              reductions := triples.map (fun t => t.2.1)
              sizes := triples.map (fun t => t.2.2)
              left_size := ops.size lt
              right_size := ops.size rt }

/-- Embedding of the Collider impl for AlchemyCollider: dispatch on the
recursive tag of the left particle. -/
def collide (ops : TermOps) (c : AlchemyCollider) (left right : LambdaParticle) :
    Except LambdaCollisionError LambdaCollisionOk :=
  if left.recursive then recursive_collide ops left right
  else nonrecursive_collide ops c left right

/-- Rust Vec::swap_remove on a list: return the element at index i after
replacing it with the last element and popping the last slot.  none models
the Rust panic on an out-of-range index. -/
def swapRemove {P : Type} (l : List P) (i : Nat) : Option (P × List P) :=
  match l.getLast? with
  | none => none
  | some last =>
      if hi : i < l.length then some (l.get ⟨i, hi⟩, (l.set i last).dropLast)
      else none

/-- Rust rand Rng::gen_range(0..bound) against a deterministic draw stream:
none models the panic on an empty range, otherwise the draw at position idx
reduced into range. -/
def genRange (stream : Nat → Nat) (idx bound : Nat) : Option Nat :=
  if bound = 0 then none else some (stream idx % bound)

/-- Embedding of the generic Soup struct of soup.rs.  The stored collider
and the two Residue trait methods (particles, count) are function fields;
the ChaCha8 PRNG is modelled by a draw stream and a cursor into it. -/
structure Soup (P T E : Type) : Type where
  expressions : List P
  n_collisions : Nat
  collider : P → P → Except E T
  particles : T → List P
  count : T → Nat
  reduction_limit : Nat
  size_limit : Nat
  maintain_constant_population_size : Bool
  discard_parents : Bool
  rngStream : Nat → Nat
  rngIndex : Nat

/-- Constant-population trim loop of Soup::react: m times, draw an index
into the current vector and swap-remove it.  Returns the trimmed list and
the advanced PRNG cursor; none models the gen_range panic on an empty
vector. -/
def trimLoop {P : Type} (stream : Nat → Nat) : Nat → List P → Nat →
    Option (List P × Nat)
  | 0, l, idx => some (l, idx)
  | m + 1, l, idx =>
      match genRange stream idx l.length with
      | none => none
      | some k =>
          match swapRemove l k with
          | none => none
          | some (_, l2) => trimLoop stream m l2 (idx + 1)

/-- Embedding of Soup::react (soup.rs): draw and swap-remove two distinct
particles, collide them, on success insert the residue and (under the
constant-population policy) trim one particle per inserted particle, then
push the parents back unless discard_parents is set.  The collision counter
is not touched, exactly as in the source.  none models a panic. -/
def react {P T E : Type} (s : Soup P T E) : Option (Except E T × Soup P T E) :=
  let n_expr := s.expressions.length
  match genRange s.rngStream s.rngIndex n_expr with
  | none => none
  | some i =>
      match swapRemove s.expressions i with
      | none => none
      | some (left, exprs1) =>
          match genRange s.rngStream (s.rngIndex + 1) (n_expr - 1) with
          | none => none
          | some j =>
              match swapRemove exprs1 j with
              | none => none
              | some (right, exprs2) =>
                  let result := s.collider left right
                  match result with
                  | .ok t =>
                      let exprs3 := exprs2 ++ s.particles t
                      let trimmed :=
                        if s.maintain_constant_population_size then
                          trimLoop s.rngStream (s.count t) exprs3 (s.rngIndex + 2)
                        else some (exprs3, s.rngIndex + 2)
                      match trimmed with
                      | none => none
                      | some (exprs4, idx2) =>
                          let final :=
                            if s.discard_parents then exprs4
                            else exprs4 ++ [left, right]
                          some (.ok t, { s with expressions := final, rngIndex := idx2 })
                  | .error e =>
                      let final :=
                        if s.discard_parents then exprs2
                        else exprs2 ++ [left, right]
                      some (.error e, { s with expressions := final, rngIndex := s.rngIndex + 2 })

/-- Embedding of LambdaSoup::jacard_index (analysis.rs): multiset Jaccard
over the underlying terms, computed from the expression_counts maps.  The
sum of minima ranges over the distinct keys of the left soup, matching the
HashMap iteration; keys absent from the right map contribute zero.  The
source divides in f32; the embedding divides in the rationals, which agrees
with the source at the exact values the spec laws quantify over. -/
def jacard_index {T E : Type} (s other : Soup LambdaParticle T E) : ℚ :=
  let selfExprs := s.expressions.map (fun p => p.expr)
  let otherExprs := other.expressions.map (fun p => p.expr)
  let intersection : Nat :=
    (selfExprs.dedup.map (fun k => min (selfExprs.count k) (otherExprs.count k))).sum
  let union : Nat := selfExprs.length + otherExprs.length - intersection
  if union = 0 then 1 else (intersection : ℚ) / (union : ℚ)

/-- Iterated external reduction: the term after k successful HAP steps from
e, or none when a normal form is reached earlier.  Used to phrase which
intermediates a bounded reduction visits. -/
def stepIter (ops : TermOps) : Term → Nat → Option Term
  | e, 0 => some e
  | e, k + 1 =>
      match ops.reduceStep e with
      | none => none
      | some e2 => stepIter ops e2 k

/-- Body of the church numeral n: the n-fold application of Var 2 to Var 1. -/
def churchBody : Nat → Term
  | 0 => .Var 1
  | n + 1 => .App (.Var 2) (churchBody n)

/-- Church numeral as built by the external into_church: lam f. lam x.
f (f ... (f x)). -/
def churchNum (n : Nat) : Term := .Abs (.Abs (churchBody n))

/-- The omega combinator (lam x. x x)(lam x. x x), which HAP-reduces to
itself in one step. -/
def omega_term : Term :=
  .App (.Abs (.App (.Var 1) (.Var 1))) (.Abs (.App (.Var 1) (.Var 1)))

/-- A two-argument candidate lam a. lam b. a b: it uses both bound
positions and is not truth-like, so it passes the recursive-dispatch
precondition. -/
def rt_good : Term := .Abs (.Abs (.App (.Var 2) (.Var 1)))

/-- A collider record with the default budgets of the reactor config
(reduction_cutoff 8000, size_cutoff 1000) and every filter off. -/
def defaultCollider : AlchemyCollider :=
  { rlimit := 8000
    slimit := 1000
    disallow_recursive := false
    reaction_rules := []
    discard_copy_actions := false
    discard_identity := false
    discard_free_variable_expressions := false }

/-- Instance of the external term interface under which the collision term
omega_term applied to rt_good steps to itself forever, as the real HAP
reduction of that application does; every other term is a normal form. -/
def loopAppOps : TermOps :=
  { reduceStep := fun t => if t = .App omega_term rt_good then some t else none
    size := termSize
    is_isomorphic_to := fun a b => a == b
    has_free_variables := fun _ => false
    intoChurch := churchNum
    eqTerm := identity_term }

/-- Instance of the external term interface under which every term steps
and every term measures 20000 nodes: the first reduction step exceeds the
16000 size budget of the recursive dispatch. -/
def bigSizeOps : TermOps :=
  { reduceStep := fun t => some t
    size := fun _ => 20000
    is_isomorphic_to := fun a b => a == b
    has_free_variables := fun _ => false
    intoChurch := churchNum
    eqTerm := identity_term }

/-- Instance of the external term interface under which every term steps to
itself and stays tiny: reductions always exhaust their step budget. -/
def loopAllOps : TermOps :=
  { reduceStep := fun t => some t
    size := fun _ => 1
    is_isomorphic_to := fun a b => a == b
    has_free_variables := fun _ => false
    intoChurch := churchNum
    eqTerm := identity_term }

/-- Instance of the external term interface under which every term steps to
its self-application, so the node count grows past any size budget. -/
def growOps : TermOps :=
  { reduceStep := fun t => some (.App t t)
    size := termSize
    is_isomorphic_to := fun a b => a == b
    has_free_variables := fun _ => false
    intoChurch := churchNum
    eqTerm := identity_term }

/-- Test particle lam x. true: applying it to any candidate HAP-reduces to
church true in one step. -/
def lt7 : Term := .Abs true_term

/-- Candidate lam a. lam b. (b b) a: two arguments, both used, not
truth-like.  Under real HAP its application to the church numerals 2 and 3
passes through church exponentials far beyond the 16000 size budget. -/
def rt7 : Term := .Abs (.Abs (.App (.App (.Var 1) (.Var 1)) (.Var 2)))

/-- Instance of the external term interface for the recursive dispatch in
which (lt7 rt7) reduces to church true in one step while the verification
reduction of (rt7 2 3) immediately produces a term that measures 20000
nodes, exceeding the 16000 size budget (mirroring the blow-up the real HAP
reduction of (rt7 2 3) causes). -/
def diagBlowOps : TermOps :=
  { reduceStep := fun t =>
      if t = .App lt7 rt7 then some true_term
      else if t = .App (.App rt7 (churchNum 2)) (churchNum 3) then some (.Var 999)
      else none
    size := fun t => if t = .Var 999 then 20000 else termSize t
    is_isomorphic_to := fun a b => a == b
    has_free_variables := fun _ => false
    intoChurch := churchNum
    eqTerm := identity_term }

/-- Instance of the external term interface for the recursive dispatch in
which (lt7 rt7) reduces to church true in one step and both verification
reductions are already normal forms. -/
def diagOkOps : TermOps :=
  { reduceStep := fun t => if t = .App lt7 rt7 then some true_term else none
    size := termSize
    is_isomorphic_to := fun a b => a == b
    has_free_variables := fun _ => false
    intoChurch := churchNum
    eqTerm := identity_term }

/-- Concrete soup over bare naturals whose collider always succeeds with
the residue res; the residue type is a particle list with the Residue
methods of the lambda implementation (particles is the list itself, count
its length).  The draw stream always yields 0. -/
def natSoup (exprs res : List Nat) (maintain discard : Bool) :
    Soup Nat (List Nat) Unit :=
  { expressions := exprs
    n_collisions := 0
    collider := fun _ _ => .ok res
    particles := fun t => t
    count := fun t => t.length
    reduction_limit := 8000
    size_limit := 1000
    maintain_constant_population_size := maintain
    discard_parents := discard
    rngStream := fun _ => 0
    rngIndex := 0 }

/-- Concrete soup of lambda particles with an inert collider, used to
evaluate the analytics laws on explicit populations. -/
def lpSoup (exprs : List LambdaParticle) : Soup LambdaParticle Unit Unit :=
  { expressions := exprs
    n_collisions := 0
    collider := fun _ _ => .error ()
    particles := fun _ => []
    count := fun _ => 0
    reduction_limit := 8000
    size_limit := 1000
    maintain_constant_population_size := false
    discard_parents := false
    rngStream := fun _ => 0
    rngIndex := 0 }

/-- Collider with a step budget of 2 and one rule, used to exercise the
budget-exhaustion path. -/
def budget2Collider : AlchemyCollider :=
  { defaultCollider with rlimit := 2, reaction_rules := [identity_term] }

/-- Collider with a step budget of 3 and a size budget of 2, used to
exercise the size-limit path. -/
def tiny6Collider : AlchemyCollider :=
  { defaultCollider with rlimit := 3, slimit := 2, reaction_rules := [identity_term] }

theorem reduceGo_succ_none (ops : TermOps) (slimit : Nat) (e : Term) (fuel n : Nat)
    (h : ops.reduceStep e = none) :
    reduceGo ops slimit e (fuel + 1) n = .ok (n, e) := by
  simp [reduceGo, h]

theorem reduceGo_succ_step (ops : TermOps) (slimit : Nat) (e e2 : Term) (fuel n : Nat)
    (h : ops.reduceStep e = some e2) (hs : ops.size e2 ≤ slimit) :
    reduceGo ops slimit e (fuel + 1) n = reduceGo ops slimit e2 fuel (n + 1) := by
  simp only [reduceGo, h]
  rw [if_neg (by omega)]

theorem reduceGo_succ_depth (ops : TermOps) (slimit : Nat) (e e2 : Term) (fuel n : Nat)
    (h : ops.reduceStep e = some e2) (hs : slimit < ops.size e2) :
    reduceGo ops slimit e (fuel + 1) n = .error .ExceedsDepthLimit := by
  simp only [reduceGo, h]
  rw [if_pos (by omega)]

theorem reduceGo_of_none (ops : TermOps) (slimit : Nat) (e : Term) (fuel n : Nat)
    (h : ops.reduceStep e = none) :
    reduceGo ops slimit e fuel n = .ok (n, e) := by
  cases fuel with
  | zero => rfl
  | succ f => exact reduceGo_succ_none ops slimit e f n h

theorem reduceGo_loop (ops : TermOps) (slimit : Nat) (t : Term)
    (h : ops.reduceStep t = some t) (hs : ops.size t ≤ slimit) :
    ∀ fuel n, reduceGo ops slimit t fuel n = .ok (n + fuel, t) := by
  intro fuel
  induction fuel with
  | zero => intro n; rfl
  | succ f ih =>
      intro n
      rw [reduceGo_succ_step ops slimit t t f n h hs, ih (n + 1)]
      congr 2
      omega

theorem reduceGo_error_depth (ops : TermOps) (slimit : Nat) :
    ∀ fuel e n err, reduceGo ops slimit e fuel n = .error err →
      err = .ExceedsDepthLimit := by
  intro fuel
  induction fuel with
  | zero =>
      intro e n err h
      simp [reduceGo] at h
  | succ f ih =>
      intro e n err h
      cases hst : ops.reduceStep e with
      | none =>
          rw [reduceGo_succ_none ops slimit e f n hst] at h
          simp at h
      | some e2 =>
          by_cases hsz : slimit < ops.size e2
          · rw [reduceGo_succ_depth ops slimit e e2 f n hst hsz] at h
            simp only [Except.error.injEq] at h
            exact h.symm
          · rw [reduceGo_succ_step ops slimit e e2 f n hst (Nat.not_lt.mp hsz)] at h
            exact ih e2 (n + 1) err h

theorem reduce_with_limit_error_depth (ops : TermOps) (e : Term) (rlimit slimit : Nat)
    (err : LambdaCollisionError)
    (h : reduce_with_limit ops e rlimit slimit = .error err) :
    err = .ExceedsDepthLimit :=
  reduceGo_error_depth ops slimit rlimit e 0 err h

theorem stepIter_depth_err (ops : TermOps) (slimit : Nat) :
    ∀ k e fuel n e2, k < fuel → stepIter ops e (k + 1) = some e2 →
      slimit < ops.size e2 →
      reduceGo ops slimit e fuel n = .error .ExceedsDepthLimit := by
  intro k
  induction k with
  | zero =>
      intro e fuel n e2 hk hstep hs
      obtain ⟨f, rfl⟩ : ∃ f, fuel = f + 1 := ⟨fuel - 1, by omega⟩
      cases hst : ops.reduceStep e with
      | none => simp [stepIter, hst] at hstep
      | some e1 =>
          have he : e1 = e2 := by simpa [stepIter, hst] using hstep
          subst he
          exact reduceGo_succ_depth ops slimit e e1 f n hst hs
  | succ k ih =>
      intro e fuel n e2 hk hstep hs
      obtain ⟨f, rfl⟩ : ∃ f, fuel = f + 1 := ⟨fuel - 1, by omega⟩
      cases hst : ops.reduceStep e with
      | none => simp [stepIter, hst] at hstep
      | some e1 =>
          have hstep2 : stepIter ops e1 (k + 1) = some e2 := by
            simpa [stepIter, hst] using hstep
          by_cases hsz : slimit < ops.size e1
          · exact reduceGo_succ_depth ops slimit e e1 f n hst hsz
          · rw [reduceGo_succ_step ops slimit e e1 f n hst (Nat.not_lt.mp hsz)]
            exact ih e1 f (n + 1) e2 (by omega) hstep2 hs

/-- C5: in non-recursive dispatch, if the bounded reduction of
((rule L) R) for the first reaction rule performs exactly rlimit (the
configured step budget) steps and the resulting term is still not a normal
form, collide fails with ExceedsReductionLimit and does not return Ok. -/
theorem nonrecursive_budget_exhaustion_fails
    (ops : TermOps) (c : AlchemyCollider) (left right : LambdaParticle)
    (rule : Term) (rest : List Term) (e2 : Term)
    (hleft : left.recursive = false) (hright : right.recursive = false)
    (hrules : c.reaction_rules = rule :: rest)
    (hred : reduce_with_limit ops (.App (.App rule left.expr) right.expr)
      c.rlimit c.slimit = .ok (c.rlimit, e2))
    (_hnf : ops.reduceStep e2 ≠ none) :
    collide ops c left right = .error .ExceedsReductionLimit := by
  simp only [collide, hleft, Bool.false_eq_true, if_false]
  simp only [nonrecursive_collide, hright, Bool.false_eq_true, if_false, hrules]
  simp only [collideRules, hred, beq_self_eq_true, if_true]

/-- Witness for C5: with a step budget of 2 and an external reducer under
which every term steps to itself, the single-rule collision of two inert
variables exhausts the budget and fails with ExceedsReductionLimit. -/
theorem nonrecursive_budget_exhaustion_fails_witness :
    collide loopAllOps budget2Collider ⟨.Var 1, false⟩ ⟨.Var 2, false⟩ =
      .error .ExceedsReductionLimit := by
  have hred : reduce_with_limit loopAllOps
      (.App (.App identity_term (.Var 1)) (.Var 2))
      budget2Collider.rlimit budget2Collider.slimit =
      .ok (budget2Collider.rlimit, .App (.App identity_term (.Var 1)) (.Var 2)) := by
    have h := reduceGo_loop loopAllOps 1000
      (.App (.App identity_term (.Var 1)) (.Var 2)) rfl (by decide) 2 0
    simpa [reduce_with_limit, budget2Collider, defaultCollider] using h
  exact nonrecursive_budget_exhaustion_fails loopAllOps budget2Collider
    ⟨.Var 1, false⟩ ⟨.Var 2, false⟩ identity_term []
    (.App (.App identity_term (.Var 1)) (.Var 2)) rfl rfl rfl hred
    (by simp [loopAllOps])

theorem reduce_with_limit_first_depth (ops : TermOps) (e e2 : Term)
    (rlimit slimit : Nat) (hst : ops.reduceStep e = some e2)
    (hs : slimit < ops.size e2) (hr : 0 < rlimit) :
    reduce_with_limit ops e rlimit slimit = .error .ExceedsDepthLimit := by
  obtain ⟨f, rfl⟩ : ∃ f, rlimit = f + 1 := ⟨rlimit - 1, by omega⟩
  exact reduceGo_succ_depth ops slimit e e2 f 0 hst hs

/-- C6: during bounded reduction the size of the term is checked after
every single reduction step: whenever some intermediate reached within the
step budget (the term after k+1 successful steps, k < rlimit) exceeds the
size budget, reduce_with_limit fails with ExceedsDepthLimit, and the
failure surfaces from collide (shown for the first rule of the
non-recursive dispatch). -/
theorem size_checked_after_every_step
    (ops : TermOps) (c : AlchemyCollider) (left right : LambdaParticle)
    (rule : Term) (rest : List Term) (k : Nat) (e2 : Term)
    (hleft : left.recursive = false) (hright : right.recursive = false)
    (hrules : c.reaction_rules = rule :: rest)
    (hk : k < c.rlimit)
    (hstep : stepIter ops (.App (.App rule left.expr) right.expr) (k + 1) = some e2)
    (hs : c.slimit < ops.size e2) :
    reduce_with_limit ops (.App (.App rule left.expr) right.expr) c.rlimit c.slimit
      = .error .ExceedsDepthLimit ∧
    collide ops c left right = .error .ExceedsDepthLimit := by
  have hred : reduce_with_limit ops (.App (.App rule left.expr) right.expr)
      c.rlimit c.slimit = .error .ExceedsDepthLimit :=
    stepIter_depth_err ops c.slimit k _ c.rlimit 0 e2 hk hstep hs
  refine ⟨hred, ?_⟩
  simp only [collide, hleft, Bool.false_eq_true, if_false]
  simp only [nonrecursive_collide, hright, Bool.false_eq_true, if_false, hrules]
  simp only [collideRules, hred]

/-- Witness for C6: with a size budget of 2 and an external reducer under
which every term steps to its self-application, the very first intermediate
exceeds the budget and the collision fails with ExceedsDepthLimit. -/
theorem size_checked_after_every_step_witness :
    reduce_with_limit growOps
      (.App (.App identity_term (.Var 1)) (.Var 2))
      tiny6Collider.rlimit tiny6Collider.slimit = .error .ExceedsDepthLimit ∧
    collide growOps tiny6Collider ⟨.Var 1, false⟩ ⟨.Var 2, false⟩ =
      .error .ExceedsDepthLimit := by
  exact size_checked_after_every_step growOps tiny6Collider
    ⟨.Var 1, false⟩ ⟨.Var 2, false⟩ identity_term [] 0
    (.App (.App (.App identity_term (.Var 1)) (.Var 2))
          (.App (.App identity_term (.Var 1)) (.Var 2)))
    rfl rfl rfl (by decide) (by decide) (by decide)

/-- C4 amended: in recursive dispatch (left of kind Test, right passing the
precondition), a failure of the bounded reduction of (L R) propagates out
of collide unchanged, and the only failure the bounded reduction can
produce is ExceedsDepthLimit; exhausting the step budget does not make
collide return ExceedsReductionLimit (see the counterexample). -/
theorem recursive_reduction_error_propagates
    (ops : TermOps) (c : AlchemyCollider) (left right : LambdaParticle)
    (err : LambdaCollisionError)
    (hleft : left.recursive = true)
    (htruthy : is_truthy right.expr = false)
    (huses : uses_both_arguments right.expr = true)
    (hargs : has_two_args right.expr = true)
    (hred : reduce_with_limit ops (.App left.expr right.expr) 32000 16000 = .error err) :
    collide ops c left right = .error err ∧ err = .ExceedsDepthLimit := by
  refine ⟨?_, reduce_with_limit_error_depth ops _ 32000 16000 err hred⟩
  simp only [collide, hleft, if_true]
  simp only [recursive_collide, htruthy, huses, hargs, Bool.and_self, Bool.not_true,
    Bool.or_false, Bool.false_eq_true, if_false, hred]

/-- Witness for C4: under an external interface whose every term measures
20000 nodes, the first reduction step of (omega rt_good) exceeds the 16000
size budget and collide fails with ExceedsDepthLimit. -/
theorem recursive_reduction_error_propagates_witness :
    collide bigSizeOps defaultCollider ⟨omega_term, true⟩ ⟨rt_good, false⟩ =
      .error .ExceedsDepthLimit := by
  have hred : reduce_with_limit bigSizeOps (.App omega_term rt_good) 32000 16000 =
      .error .ExceedsDepthLimit :=
    reduce_with_limit_first_depth bigSizeOps (.App omega_term rt_good)
      (.App omega_term rt_good) 32000 16000 rfl (by decide) (by decide)
  exact (recursive_reduction_error_propagates bigSizeOps defaultCollider
    ⟨omega_term, true⟩ ⟨rt_good, false⟩ .ExceedsDepthLimit rfl (by decide)
    (by decide) (by decide) hred).1

theorem collide_recursive_eq (ops : TermOps) (c : AlchemyCollider)
    (left right : LambdaParticle) (h : left.recursive = true) :
    collide ops c left right = recursive_collide ops left right := by
  simp [collide, h]

theorem collide_nonrecursive_eq (ops : TermOps) (c : AlchemyCollider)
    (left right : LambdaParticle) (h : left.recursive = false) :
    collide ops c left right = nonrecursive_collide ops c left right := by
  simp [collide, h]

theorem recursive_collide_bad (ops : TermOps) (left right : LambdaParticle)
    (h : has_two_args right.expr = false ∨ uses_both_arguments right.expr = false ∨
      is_truthy right.expr = true) :
    recursive_collide ops left right = .error .BadArgument := by
  have hg : (is_truthy right.expr ||
      !(uses_both_arguments right.expr && has_two_args right.expr)) = true := by
    rcases h with h | h | h <;> simp [h]
  simp only [recursive_collide, hg, if_true]

theorem recursive_collide_no_bad (ops : TermOps) (left right : LambdaParticle)
    (htruthy : is_truthy right.expr = false)
    (huses : uses_both_arguments right.expr = true)
    (hargs : has_two_args right.expr = true) :
    recursive_collide ops left right ≠ .error .BadArgument := by
  simp only [recursive_collide, htruthy, huses, hargs, Bool.and_self, Bool.not_true,
    Bool.or_false, Bool.false_eq_true, if_false]
  cases hred : reduce_with_limit ops (.App left.expr right.expr) 32000 16000 with
  | error e =>
      have he := reduce_with_limit_error_depth ops _ 32000 16000 e hred
      subst he
      simp
  | ok p =>
      obtain ⟨n, e⟩ := p
      cases hiso : ops.is_isomorphic_to e true_term with
      | false => simp [hiso]
      | true =>
          simp only [hiso, if_true]
          cases hdiag : reduce_with_limit ops
              (.App (.App right.expr (ops.intoChurch 2)) (ops.intoChurch 3))
              32000 16000 with
          | error e2 =>
              have he2 := reduce_with_limit_error_depth ops _ 32000 16000 e2 hdiag
              subst he2
              simp
          | ok p2 =>
              obtain ⟨n2, e2⟩ := p2
              cases heq : reduce_with_limit ops
                  (.App (.App ops.eqTerm e2) (ops.intoChurch 5)) 32000 16000 with
              | error e3 =>
                  have he3 := reduce_with_limit_error_depth ops _ 32000 16000 e3 heq
                  subst he3
                  simp [heq]
              | ok p3 =>
                  obtain ⟨n3, e3⟩ := p3
                  simp [heq]

theorem recursive_collide_ok_not_true (ops : TermOps) (left right : LambdaParticle)
    (n : Nat) (e : Term)
    (htruthy : is_truthy right.expr = false)
    (huses : uses_both_arguments right.expr = true)
    (hargs : has_two_args right.expr = true)
    (hred : reduce_with_limit ops (.App left.expr right.expr) 32000 16000 = .ok (n, e))
    (hiso : ops.is_isomorphic_to e true_term = false) :
    recursive_collide ops left right =
      .ok { results := [left]
            reductions := [n]
            sizes := [ops.size e]
            left_size := ops.size left.expr
            right_size := ops.size right.expr } := by
  simp only [recursive_collide, htruthy, huses, hargs, Bool.and_self, Bool.not_true,
    Bool.or_false, Bool.false_eq_true, if_false, hred, hiso]

theorem recursive_collide_true_all_ok (ops : TermOps) (left right : LambdaParticle)
    (n n2 n3 : Nat) (e e2 e3 : Term)
    (htruthy : is_truthy right.expr = false)
    (huses : uses_both_arguments right.expr = true)
    (hargs : has_two_args right.expr = true)
    (hred : reduce_with_limit ops (.App left.expr right.expr) 32000 16000 = .ok (n, e))
    (hiso : ops.is_isomorphic_to e true_term = true)
    (hdiag : reduce_with_limit ops
      (.App (.App right.expr (ops.intoChurch 2)) (ops.intoChurch 3)) 32000 16000
      = .ok (n2, e2))
    (heq : reduce_with_limit ops
      (.App (.App ops.eqTerm e2) (ops.intoChurch 5)) 32000 16000 = .ok (n3, e3)) :
    recursive_collide ops left right =
      .ok { results := List.replicate 100 right
            reductions := [n]
            sizes := [ops.size e3]
            left_size := ops.size left.expr
            right_size := ops.size right.expr } := by
  simp only [recursive_collide, htruthy, huses, hargs, Bool.and_self, Bool.not_true,
    Bool.or_false, Bool.false_eq_true, if_false, hred, hiso, if_true, hdiag, heq]

theorem recursive_collide_true_diag_err (ops : TermOps) (left right : LambdaParticle)
    (n : Nat) (e : Term) (err : LambdaCollisionError)
    (htruthy : is_truthy right.expr = false)
    (huses : uses_both_arguments right.expr = true)
    (hargs : has_two_args right.expr = true)
    (hred : reduce_with_limit ops (.App left.expr right.expr) 32000 16000 = .ok (n, e))
    (hiso : ops.is_isomorphic_to e true_term = true)
    (hdiag : reduce_with_limit ops
      (.App (.App right.expr (ops.intoChurch 2)) (ops.intoChurch 3)) 32000 16000
      = .error err) :
    recursive_collide ops left right = .error err := by
  simp only [recursive_collide, htruthy, huses, hargs, Bool.and_self, Bool.not_true,
    Bool.or_false, Bool.false_eq_true, if_false, hred, hiso, if_true, hdiag]

theorem recursive_collide_true_eq_err (ops : TermOps) (left right : LambdaParticle)
    (n n2 : Nat) (e e2 : Term) (err : LambdaCollisionError)
    (htruthy : is_truthy right.expr = false)
    (huses : uses_both_arguments right.expr = true)
    (hargs : has_two_args right.expr = true)
    (hred : reduce_with_limit ops (.App left.expr right.expr) 32000 16000 = .ok (n, e))
    (hiso : ops.is_isomorphic_to e true_term = true)
    (hdiag : reduce_with_limit ops
      (.App (.App right.expr (ops.intoChurch 2)) (ops.intoChurch 3)) 32000 16000
      = .ok (n2, e2))
    (heq : reduce_with_limit ops
      (.App (.App ops.eqTerm e2) (ops.intoChurch 5)) 32000 16000 = .error err) :
    recursive_collide ops left right = .error err := by
  simp only [recursive_collide, htruthy, huses, hargs, Bool.and_self, Bool.not_true,
    Bool.or_false, Bool.false_eq_true, if_false, hred, hiso, if_true, hdiag, heq]

/-- Counterexample for C4: under an external interface for which the
collision term (omega rt_good) HAP-steps to itself forever (as the real
reducer does), the bounded reduction exhausts all 32000 steps without
reaching a normal form, yet collide returns Ok with the one-particle
residue of the left test particle instead of the error
ExceedsReductionLimit: recursive_collide never compares the step count
against the budget. -/
theorem recursive_budget_exhaustion_returns_ok :
    reduce_with_limit loopAppOps (.App omega_term rt_good) 32000 16000 =
      .ok (32000, .App omega_term rt_good) ∧
    loopAppOps.reduceStep (.App omega_term rt_good) =
      some (.App omega_term rt_good) ∧
    collide loopAppOps defaultCollider ⟨omega_term, true⟩ ⟨rt_good, false⟩ =
      .ok { results := [⟨omega_term, true⟩]
            reductions := [32000]
            sizes := [termSize (.App omega_term rt_good)]
            left_size := termSize omega_term
            right_size := termSize rt_good } := by
  have hred : reduce_with_limit loopAppOps (.App omega_term rt_good) 32000 16000 =
      .ok (32000, .App omega_term rt_good) := by
    have h := reduceGo_loop loopAppOps 16000 (.App omega_term rt_good)
      (by decide) (by decide) 32000 0
    simpa [reduce_with_limit] using h
  refine ⟨hred, by decide, ?_⟩
  rw [collide_recursive_eq loopAppOps defaultCollider ⟨omega_term, true⟩
    ⟨rt_good, false⟩ rfl]
  have h := recursive_collide_ok_not_true loopAppOps ⟨omega_term, true⟩
    ⟨rt_good, false⟩ 32000 (.App omega_term rt_good) (by decide) (by decide)
    (by decide) hred (by decide)
  exact h

theorem reduce_with_limit_none (ops : TermOps) (e : Term) (rlimit slimit : Nat)
    (h : ops.reduceStep e = none) :
    reduce_with_limit ops e rlimit slimit = .ok (0, e) :=
  reduceGo_of_none ops slimit e rlimit 0 h

theorem reduce_with_limit_one_step (ops : TermOps) (e e2 : Term)
    (rlimit slimit : Nat) (h1 : ops.reduceStep e = some e2)
    (hs : ops.size e2 ≤ slimit) (h2 : ops.reduceStep e2 = none) (hr : 0 < rlimit) :
    reduce_with_limit ops e rlimit slimit = .ok (1, e2) := by
  obtain ⟨f, rfl⟩ : ∃ f, rlimit = f + 1 := ⟨rlimit - 1, by omega⟩
  rw [reduce_with_limit, reduceGo_succ_step ops slimit e e2 f 0 h1 hs,
    reduceGo_of_none ops slimit e2 f 1 h2]

/-- C7 amended: in recursive dispatch with the precondition passed, when
(L R) reduces within budget to a term alpha-equivalent to church true and
the two subsequent verification reductions (of (R 2 3), then of
(eq _ 5)) also succeed within their enlarged budgets, collide returns Ok
with a residue of exactly 100 copies of right; a failure of either
verification reduction propagates as that error instead of the
amplification; and when the reduced term is not alpha-equivalent to true,
collide returns Ok with the one-particle residue containing left. -/
theorem recursive_true_amplifies
    (ops : TermOps) (c : AlchemyCollider) (left right : LambdaParticle)
    (n : Nat) (e : Term)
    (hleft : left.recursive = true)
    (htruthy : is_truthy right.expr = false)
    (huses : uses_both_arguments right.expr = true)
    (hargs : has_two_args right.expr = true)
    (hred : reduce_with_limit ops (.App left.expr right.expr) 32000 16000
      = .ok (n, e)) :
    (ops.is_isomorphic_to e true_term = false →
      collide ops c left right =
        .ok { results := [left]
              reductions := [n]
              sizes := [ops.size e]
              left_size := ops.size left.expr
              right_size := ops.size right.expr }) ∧
    (ops.is_isomorphic_to e true_term = true →
      (∀ n2 e2 n3 e3,
        reduce_with_limit ops
          (.App (.App right.expr (ops.intoChurch 2)) (ops.intoChurch 3)) 32000 16000
          = .ok (n2, e2) →
        reduce_with_limit ops
          (.App (.App ops.eqTerm e2) (ops.intoChurch 5)) 32000 16000 = .ok (n3, e3) →
        collide ops c left right =
          .ok { results := List.replicate 100 right
                reductions := [n]
                sizes := [ops.size e3]
                left_size := ops.size left.expr
                right_size := ops.size right.expr }) ∧
      (∀ err,
        reduce_with_limit ops
          (.App (.App right.expr (ops.intoChurch 2)) (ops.intoChurch 3)) 32000 16000
          = .error err →
        collide ops c left right = .error err) ∧
      (∀ n2 e2 err,
        reduce_with_limit ops
          (.App (.App right.expr (ops.intoChurch 2)) (ops.intoChurch 3)) 32000 16000
          = .ok (n2, e2) →
        reduce_with_limit ops
          (.App (.App ops.eqTerm e2) (ops.intoChurch 5)) 32000 16000 = .error err →
        collide ops c left right = .error err)) := by
  rw [collide_recursive_eq ops c left right hleft]
  refine ⟨?_, ?_⟩
  · intro hiso
    exact recursive_collide_ok_not_true ops left right n e htruthy huses hargs hred hiso
  · intro hiso
    refine ⟨?_, ?_, ?_⟩
    · intro n2 e2 n3 e3 hdiag heq2
      exact recursive_collide_true_all_ok ops left right n n2 n3 e e2 e3
        htruthy huses hargs hred hiso hdiag heq2
    · intro err hdiag
      exact recursive_collide_true_diag_err ops left right n e err
        htruthy huses hargs hred hiso hdiag
    · intro n2 e2 err hdiag heq2
      exact recursive_collide_true_eq_err ops left right n n2 e e2 err
        htruthy huses hargs hred hiso hdiag heq2

/-- Witness for C7: with an external reducer under which (lt7 rt7) steps to
church true and both verification terms are normal forms, the collision
amplifies the candidate into 100 copies. -/
theorem recursive_true_amplifies_witness :
    collide diagOkOps defaultCollider ⟨lt7, true⟩ ⟨rt7, false⟩ =
      .ok { results := List.replicate 100 ⟨rt7, false⟩
            reductions := [1]
            sizes := [termSize (.App (.App identity_term
              (.App (.App rt7 (churchNum 2)) (churchNum 3))) (churchNum 5))]
            left_size := termSize lt7
            right_size := termSize rt7 } := by
  have hred : reduce_with_limit diagOkOps (.App lt7 rt7) 32000 16000
      = .ok (1, true_term) :=
    reduce_with_limit_one_step diagOkOps (.App lt7 rt7) true_term 32000 16000
      (by decide) (by decide) (by decide) (by decide)
  have h := recursive_true_amplifies diagOkOps defaultCollider ⟨lt7, true⟩
    ⟨rt7, false⟩ 1 true_term rfl (by decide) (by decide) (by decide) hred
  exact (h.2 (by decide)).1 0 (.App (.App rt7 (churchNum 2)) (churchNum 3)) 0
    (.App (.App identity_term (.App (.App rt7 (churchNum 2)) (churchNum 3)))
      (churchNum 5))
    (reduce_with_limit_none diagOkOps _ 32000 16000 (by decide))
    (reduce_with_limit_none diagOkOps _ 32000 16000 (by decide))

/-- Counterexample for C7: under an external interface for which (lt7 rt7)
reduces within budget to church true but the verification reduction of
(rt7 2 3) immediately exceeds the 16000 size budget (as the real HAP
reduction of that term eventually does, passing through a church numeral
with far more than 16000 nodes), collide returns the error
ExceedsDepthLimit rather than Ok with 100 copies of the right particle. -/
theorem recursive_true_without_amplification :
    reduce_with_limit diagBlowOps (.App lt7 rt7) 32000 16000 = .ok (1, true_term) ∧
    diagBlowOps.is_isomorphic_to true_term true_term = true ∧
    collide diagBlowOps defaultCollider ⟨lt7, true⟩ ⟨rt7, false⟩ =
      .error .ExceedsDepthLimit := by
  have hred : reduce_with_limit diagBlowOps (.App lt7 rt7) 32000 16000
      = .ok (1, true_term) :=
    reduce_with_limit_one_step diagBlowOps (.App lt7 rt7) true_term 32000 16000
      (by decide) (by decide) (by decide) (by decide)
  refine ⟨hred, by decide, ?_⟩
  rw [collide_recursive_eq diagBlowOps defaultCollider ⟨lt7, true⟩ ⟨rt7, false⟩ rfl]
  exact recursive_collide_true_diag_err diagBlowOps ⟨lt7, true⟩ ⟨rt7, false⟩ 1
    true_term .ExceedsDepthLimit (by decide) (by decide) (by decide) hred (by decide)
    (reduce_with_limit_first_depth diagBlowOps
      (.App (.App rt7 (diagBlowOps.intoChurch 2)) (diagBlowOps.intoChurch 3))
      (.Var 999) 32000 16000 (by decide) (by decide) (by decide))

/-- C8: in recursive dispatch, collide fails with BadArgument exactly when
the right operand is not a two-argument abstraction, or its body does not
reference both of the two outer binder positions, or it is truth-like; no
other path of the recursive dispatch produces BadArgument. -/
theorem collide_bad_argument_iff
    (ops : TermOps) (c : AlchemyCollider) (left right : LambdaParticle)
    (hleft : left.recursive = true) :
    collide ops c left right = .error .BadArgument ↔
      (has_two_args right.expr = false ∨ uses_both_arguments right.expr = false ∨
        is_truthy right.expr = true) := by
  rw [collide_recursive_eq ops c left right hleft]
  constructor
  · intro h
    by_contra hcon
    push_neg at hcon
    obtain ⟨h1, h2, h3⟩ := hcon
    exact recursive_collide_no_bad ops left right (by simpa using h3)
      (by simpa using h2) (by simpa using h1) h
  · exact recursive_collide_bad ops left right

/-- Witness for C8: a bare variable is not a two-argument abstraction, so
the recursive dispatch rejects it with BadArgument. -/
theorem collide_bad_argument_iff_witness :
    collide diagOkOps defaultCollider ⟨.Var 1, true⟩ ⟨.Var 1, false⟩ =
      .error .BadArgument :=
  (collide_bad_argument_iff diagOkOps defaultCollider ⟨.Var 1, true⟩
    ⟨.Var 1, false⟩ rfl).mpr (Or.inl (by decide))

theorem genRange_eq_some {stream : Nat → Nat} {idx bound k : Nat}
    (h : genRange stream idx bound = some k) : k < bound := by
  unfold genRange at h
  split at h
  · exact Option.noConfusion h
  · rename_i hb
    simp only [Option.some.injEq] at h
    subst h
    exact Nat.mod_lt _ (by omega)

theorem genRange_pos (stream : Nat → Nat) (idx bound : Nat) (hb : bound ≠ 0) :
    genRange stream idx bound = some (stream idx % bound) := by
  simp [genRange, hb]

theorem swapRemove_eq_some {P : Type} {l : List P} {i : Nat} {p : P} {l2 : List P}
    (h : swapRemove l i = some (p, l2)) :
    p ∈ l ∧ (∀ x ∈ l2, x ∈ l) ∧ l2.length = l.length - 1 := by
  unfold swapRemove at h
  split at h
  · exact Option.noConfusion h
  · rename_i last hl
    split at h
    · rename_i hi
      simp only [Option.some.injEq, Prod.mk.injEq] at h
      obtain ⟨hp, hl2⟩ := h
      subst hp
      subst hl2
      refine ⟨List.get_mem l i hi, ?_, ?_⟩
      · intro x hx
        have hx2 := List.mem_of_mem_dropLast hx
        rcases List.mem_or_eq_of_mem_set hx2 with h1 | h1
        · exact h1
        · subst h1
          exact List.mem_of_mem_getLast? hl
      · simp [List.length_dropLast, List.length_set]
    · exact Option.noConfusion h

theorem swapRemove_of_lt {P : Type} (l : List P) (i : Nat) (hi : i < l.length) :
    ∃ p l2, swapRemove l i = some (p, l2) := by
  have hne : l ≠ [] := List.ne_nil_of_length_pos (by omega)
  obtain ⟨last, hl⟩ := Option.isSome_iff_exists.mp
    (List.getLast?_isSome.mpr hne)
  refine ⟨l.get ⟨i, hi⟩, (l.set i last).dropLast, ?_⟩
  unfold swapRemove
  simp only [hl]
  rw [dif_pos hi]

theorem trimLoop_some_length {P : Type} (stream : Nat → Nat) :
    ∀ (m : Nat) (l l2 : List P) (idx idx2 : Nat),
      trimLoop stream m l idx = some (l2, idx2) → l2.length = l.length - m := by
  intro m
  induction m with
  | zero =>
      intro l l2 idx idx2 h
      simp only [trimLoop, Option.some.injEq, Prod.mk.injEq] at h
      obtain ⟨h1, _⟩ := h
      subst h1
      omega
  | succ m ih =>
      intro l l2 idx idx2 h
      simp only [trimLoop] at h
      cases hg : genRange stream idx l.length with
      | none =>
          simp only [hg] at h
          exact Option.noConfusion h
      | some k =>
          simp only [hg] at h
          cases hs : swapRemove l k with
          | none =>
              simp only [hs] at h
              exact Option.noConfusion h
          | some pr =>
              obtain ⟨p, lmid⟩ := pr
              simp only [hs] at h
              have hlen := (swapRemove_eq_some hs).2.2
              have := ih lmid l2 (idx + 1) idx2 h
              have hb : k < l.length := genRange_eq_some hg
              omega

theorem trimLoop_total {P : Type} (stream : Nat → Nat) :
    ∀ (m : Nat) (l : List P) (idx : Nat), m ≤ l.length →
      ∃ l2 idx2, trimLoop stream m l idx = some (l2, idx2) := by
  intro m
  induction m with
  | zero => intro l idx _; exact ⟨l, idx, rfl⟩
  | succ m ih =>
      intro l idx hm
      have hb : l.length ≠ 0 := by omega
      have hg := genRange_pos stream idx l.length hb
      have hk : stream idx % l.length < l.length := Nat.mod_lt _ (by omega)
      obtain ⟨p, lmid, hsw⟩ := swapRemove_of_lt l _ hk
      have hlen := (swapRemove_eq_some hsw).2.2
      obtain ⟨l2, idx2, htr⟩ := ih lmid (idx + 1) (by omega)
      refine ⟨l2, idx2, ?_⟩
      simp only [trimLoop, hg, hsw, htr]

theorem react_some_parts {P T E : Type} (s : Soup P T E) (r : Except E T)
    (s2 : Soup P T E) (h : react s = some (r, s2)) :
    s2.n_collisions = s.n_collisions ∧
    2 ≤ s.expressions.length ∧
    ∃ left right exprs2,
      left ∈ s.expressions ∧ right ∈ s.expressions ∧
      (∀ x ∈ exprs2, x ∈ s.expressions) ∧
      exprs2.length = s.expressions.length - 2 ∧
      ((∃ t exprs4 idx2,
          r = .ok t ∧
          ((s.maintain_constant_population_size = true ∧
            trimLoop s.rngStream (s.count t) (exprs2 ++ s.particles t)
              (s.rngIndex + 2) = some (exprs4, idx2)) ∨
           (s.maintain_constant_population_size = false ∧
            exprs4 = exprs2 ++ s.particles t)) ∧
          s2.expressions =
            (if s.discard_parents then exprs4 else exprs4 ++ [left, right])) ∨
       (∃ e, r = .error e ∧
          s2.expressions =
            (if s.discard_parents then exprs2 else exprs2 ++ [left, right]))) := by
  simp only [react] at h
  cases hg1 : genRange s.rngStream s.rngIndex s.expressions.length with
  | none =>
      simp only [hg1] at h
      exact Option.noConfusion h
  | some i =>
      simp only [hg1] at h
      cases hs1 : swapRemove s.expressions i with
      | none =>
          simp only [hs1] at h
          exact Option.noConfusion h
      | some pr1 =>
          obtain ⟨left, exprs1⟩ := pr1
          simp only [hs1] at h
          obtain ⟨hmem1, hsub1, hlen1⟩ := swapRemove_eq_some hs1
          cases hg2 : genRange s.rngStream (s.rngIndex + 1)
              (s.expressions.length - 1) with
          | none =>
              simp only [hg2] at h
              exact Option.noConfusion h
          | some j =>
              simp only [hg2] at h
              have hj : j < s.expressions.length - 1 := genRange_eq_some hg2
              cases hs2 : swapRemove exprs1 j with
              | none =>
                  simp only [hs2] at h
                  exact Option.noConfusion h
              | some pr2 =>
                  obtain ⟨right, exprs2⟩ := pr2
                  simp only [hs2] at h
                  obtain ⟨hmem2, hsub2, hlen2⟩ := swapRemove_eq_some hs2
                  have h2 : 2 ≤ s.expressions.length := by omega
                  cases hc : s.collider left right with
                  | ok t =>
                      simp only [hc] at h
                      cases hmflag : s.maintain_constant_population_size with
                      | false =>
                          simp only [hmflag, Bool.false_eq_true, if_false,
                            Option.some.injEq, Prod.mk.injEq] at h
                          obtain ⟨hr, hs2eq⟩ := h
                          subst hr
                          subst hs2eq
                          exact ⟨rfl, h2, left, right, exprs2, hmem1,
                            hsub1 right hmem2, fun x hx => hsub1 x (hsub2 x hx),
                            by omega,
                            Or.inl ⟨t, exprs2 ++ s.particles t, s.rngIndex + 2, rfl,
                              Or.inr ⟨rfl, rfl⟩, rfl⟩⟩
                      | true =>
                          simp only [hmflag, if_true] at h
                          cases htr : trimLoop s.rngStream (s.count t)
                              (exprs2 ++ s.particles t) (s.rngIndex + 2) with
                          | none =>
                              simp only [htr] at h
                              exact Option.noConfusion h
                          | some pr3 =>
                              obtain ⟨exprs4, idx2⟩ := pr3
                              simp only [htr, Option.some.injEq, Prod.mk.injEq] at h
                              obtain ⟨hr, hs2eq⟩ := h
                              subst hr
                              subst hs2eq
                              exact ⟨rfl, h2, left, right, exprs2, hmem1,
                                hsub1 right hmem2,
                                fun x hx => hsub1 x (hsub2 x hx), by omega,
                                Or.inl ⟨t, exprs4, idx2, rfl,
                                  Or.inl ⟨rfl, htr⟩, rfl⟩⟩
                  | error e =>
                      simp only [hc, Option.some.injEq, Prod.mk.injEq] at h
                      obtain ⟨hr, hs2eq⟩ := h
                      subst hr
                      subst hs2eq
                      exact ⟨rfl, h2, left, right, exprs2, hmem1,
                        hsub1 right hmem2, fun x hx => hsub1 x (hsub2 x hx),
                        by omega, Or.inr ⟨e, rfl, rfl⟩⟩

/-- C1 (code behaviour): Soup::react never touches the collision counter:
after any completed call, panicking or not, n_collisions is exactly what it
was before, so react does not increment it by 1 as specified; the counter
stays at its initial value forever. -/
theorem react_never_increments_collisions {P T E : Type} (s : Soup P T E)
    (r : Except E T) (s2 : Soup P T E) (h : react s = some (r, s2)) :
    s2.n_collisions = s.n_collisions :=
  (react_some_parts s r s2 h).1

/-- Witness for C1: a concrete two-particle soup reacts successfully and
its collision counter is unchanged. -/
theorem react_never_increments_collisions_witness :
    ({ natSoup [0, 1] [5] false false with
        expressions := [5, 0, 1], rngIndex := 2 } :
      Soup Nat (List Nat) Unit).n_collisions =
      (natSoup [0, 1] [5] false false).n_collisions :=
  react_never_increments_collisions (natSoup [0, 1] [5] false false)
    (.ok [5]) _ rfl

/-- C2 (code behaviour): on a population of fewer than 2 particles react
panics (modelled by none) in gen_range on an empty range: soup.rs has no
population-size guard and never constructs NotEnoughExpressions. -/
theorem react_small_population_panics {P T E : Type} (s : Soup P T E)
    (h : s.expressions.length < 2) : react s = none := by
  cases hexp : s.expressions with
  | nil => simp [react, hexp, genRange]
  | cons a tl =>
      cases tl with
      | nil => simp [react, hexp, genRange, swapRemove, Nat.mod_one]
      | cons b tl2 =>
          rw [hexp] at h
          simp at h
          omega

/-- Witness for C2: the singleton soup panics in react. -/
theorem react_small_population_panics_witness :
    react (natSoup [7] [] false false) = none :=
  react_small_population_panics (natSoup [7] [] false false) (by decide)

/-- C10: with discard_parents off, after any completed react call (Ok or
Err) both sampled parents sit at the tail of the new population and both
came from the pre-reaction population: the constant-population trim draws
only from the pool with the parents removed, so a reaction can never
remove its own parents. -/
theorem react_parents_survive {P T E : Type} (s : Soup P T E)
    (r : Except E T) (s2 : Soup P T E)
    (hdp : s.discard_parents = false)
    (h : react s = some (r, s2)) :
    ∃ core left right, s2.expressions = core ++ [left, right] ∧
      left ∈ s.expressions ∧ right ∈ s.expressions := by
  obtain ⟨-, -, left, right, exprs2, hm1, hm2, -, -, hbr⟩ :=
    react_some_parts s r s2 h
  rcases hbr with ⟨t, exprs4, idx2, -, -, hexp⟩ | ⟨e, -, hexp⟩
  · simp only [hdp, Bool.false_eq_true, if_false] at hexp
    exact ⟨exprs4, left, right, hexp, hm1, hm2⟩
  · simp only [hdp, Bool.false_eq_true, if_false] at hexp
    exact ⟨exprs2, left, right, hexp, hm1, hm2⟩

/-- Witness for C10: in the concrete two-particle reaction the two parents
0 and 1 are back at the tail of the population. -/
theorem react_parents_survive_witness :
    ∃ core left right,
      ({ natSoup [0, 1] [5] false false with
          expressions := [5, 0, 1], rngIndex := 2 } :
        Soup Nat (List Nat) Unit).expressions = core ++ [left, right] ∧
      left ∈ (natSoup [0, 1] [5] false false).expressions ∧
      right ∈ (natSoup [0, 1] [5] false false).expressions :=
  react_parents_survive (natSoup [0, 1] [5] false false) (.ok [5]) _ rfl rfl

/-- C3 amended: with discard_parents off and constant-population
maintenance on, every successful reaction leaves the population size
unchanged for every residue size k, including k greater than the
pre-reaction population size: the trim removes its k particles from the
pool that already contains the k freshly inserted ones, so it never runs
dry. -/
theorem react_constant_population {P T E : Type} (s : Soup P T E) (t : T)
    (s2 : Soup P T E)
    (hdp : s.discard_parents = false)
    (hm : s.maintain_constant_population_size = true)
    (hres : s.count t = (s.particles t).length)
    (h : react s = some (.ok t, s2)) :
    s2.expressions.length = s.expressions.length := by
  obtain ⟨-, hlen, left, right, exprs2, -, -, -, hlen2, hbr⟩ :=
    react_some_parts s (.ok t) s2 h
  rcases hbr with ⟨t', exprs4, idx2, ht', htr, hexp⟩ | ⟨e, he, -⟩
  · have htt : t = t' := by
      injection ht'
    subst htt
    rcases htr with ⟨-, htr⟩ | ⟨hmf, -⟩
    · have h4 := trimLoop_some_length s.rngStream (s.count t)
        (exprs2 ++ s.particles t) exprs4 (s.rngIndex + 2) idx2 htr
      rw [hres] at h4
      simp only [List.length_append] at h4
      simp only [hdp, Bool.false_eq_true, if_false] at hexp
      rw [hexp]
      simp only [List.length_append, List.length_cons, List.length_nil]
      omega
    · rw [hmf] at hm
      exact absurd hm (by simp)
  · exact Except.noConfusion he

/-- Witness for C3 (amended): a concrete successful reaction with residue
size 1 on a two-particle soup keeps the population at 2. -/
theorem react_constant_population_witness :
    ({ natSoup [0, 1] [9] true false with
        expressions := [0, 1], rngIndex := 3 } :
      Soup Nat (List Nat) Unit).expressions.length =
      (natSoup [0, 1] [9] true false).expressions.length :=
  react_constant_population (natSoup [0, 1] [9] true false) [9] _ rfl rfl rfl rfl

/-- Counterexample for C3: a two-particle soup under
(discard_parents = false, maintain_constant_population_size = true) reacts
successfully with a residue of size k = 3 > 2 = the pre-reaction
population size, and the population size is nevertheless preserved at 2,
refuting the claimed equivalence (size preserved iff k at most the
population size). -/
theorem react_constant_population_large_residue :
    react (natSoup [0, 1] [5, 6, 7] true false) =
      some (.ok [5, 6, 7],
        { natSoup [0, 1] [5, 6, 7] true false with
            expressions := [0, 1], rngIndex := 5 }) ∧
    ((natSoup [0, 1] [5, 6, 7] true false).particles [5, 6, 7]).length = 3 ∧
    ((natSoup [0, 1] [5, 6, 7] true false).count [5, 6, 7]) = 3 ∧
    (natSoup [0, 1] [5, 6, 7] true false).expressions.length = 2 := by
  exact ⟨rfl, rfl, rfl, rfl⟩

theorem sum_dedup_map_eq_sum_toFinset {α : Type} [DecidableEq α]
    (l : List α) (f : α → Nat) :
    (l.dedup.map f).sum = ∑ x ∈ l.toFinset, f x := by
  rw [← List.sum_toFinset f (List.nodup_dedup l)]
  congr 1
  ext x
  simp

theorem list_inter_self {α : Type} [DecidableEq α] (a : List α) :
    (a.dedup.map (fun k => min (a.count k) (a.count k))).sum = a.length := by
  simp only [min_self]
  exact List.sum_map_count_dedup_eq_length a

theorem list_inter_comm {α : Type} [DecidableEq α] (a b : List α) :
    (a.dedup.map (fun k => min (a.count k) (b.count k))).sum =
    (b.dedup.map (fun k => min (b.count k) (a.count k))).sum := by
  rw [sum_dedup_map_eq_sum_toFinset, sum_dedup_map_eq_sum_toFinset]
  have h1 : ∑ x ∈ a.toFinset, min (a.count x) (b.count x) =
      ∑ x ∈ a.toFinset ∪ b.toFinset, min (a.count x) (b.count x) := by
    refine Finset.sum_subset Finset.subset_union_left ?_
    intro x _ hx
    rw [List.count_eq_zero_of_not_mem (fun hm => hx (List.mem_toFinset.mpr hm))]
    simp
  have h2 : ∑ x ∈ b.toFinset, min (b.count x) (a.count x) =
      ∑ x ∈ a.toFinset ∪ b.toFinset, min (b.count x) (a.count x) := by
    refine Finset.sum_subset Finset.subset_union_right ?_
    intro x _ hx
    rw [List.count_eq_zero_of_not_mem (fun hm => hx (List.mem_toFinset.mpr hm))]
    simp
  rw [h1, h2]
  refine Finset.sum_congr rfl ?_
  intro x _
  exact Nat.min_comm _ _

theorem list_inter_empty {α : Type} [DecidableEq α] (a : List α) :
    (a.dedup.map (fun k => min (a.count k) (List.count k ([] : List α)))).sum = 0 := by
  simp

/-- C9: laws of the multiset Jaccard index of analysis.rs: it is 1 on any
soup against itself, symmetric in its two arguments, 1 on two empty soups,
and 0 between a non-empty soup and an empty one. -/
theorem jacard_index_laws :
    (∀ (T E : Type) (s : Soup LambdaParticle T E), jacard_index s s = 1) ∧
    (∀ (T E : Type) (s o : Soup LambdaParticle T E),
      jacard_index s o = jacard_index o s) ∧
    (∀ (T E : Type) (s o : Soup LambdaParticle T E),
      s.expressions = [] → o.expressions = [] → jacard_index s o = 1) ∧
    (∀ (T E : Type) (s o : Soup LambdaParticle T E),
      s.expressions ≠ [] → o.expressions = [] → jacard_index s o = 0) := by
  refine ⟨?_, ?_, ?_, ?_⟩
  · intro T E s
    simp only [jacard_index]
    rw [list_inter_self]
    have hu : (s.expressions.map (fun p => p.expr)).length +
        (s.expressions.map (fun p => p.expr)).length -
        (s.expressions.map (fun p => p.expr)).length =
        (s.expressions.map (fun p => p.expr)).length := by omega
    rw [hu]
    by_cases h : (s.expressions.map (fun p => p.expr)).length = 0
    · rw [if_pos h]
    · rw [if_neg h]
      exact div_self (Nat.cast_ne_zero.mpr h)
  · intro T E s o
    simp only [jacard_index]
    rw [list_inter_comm (s.expressions.map (fun p => p.expr))
      (o.expressions.map (fun p => p.expr))]
    rw [Nat.add_comm (s.expressions.map (fun p => p.expr)).length
      (o.expressions.map (fun p => p.expr)).length]
  · intro T E s o hs ho
    simp [jacard_index, hs, ho]
  · intro T E s o hne he
    simp only [jacard_index, he, List.map_nil]
    rw [list_inter_empty]
    have hlen : (s.expressions.map (fun p => p.expr)).length ≠ 0 := by
      simpa using fun hcon => hne (List.eq_nil_of_length_eq_zero hcon)
    rw [if_neg (by simpa using hlen)]
    simp

/-- Witness for C9: the two-empty-soups law and the non-empty-against-empty
law evaluated on concrete populations. -/
theorem jacard_index_laws_witness :
    jacard_index (lpSoup []) (lpSoup []) = 1 ∧
    jacard_index (lpSoup [⟨.Var 1, false⟩]) (lpSoup []) = 0 :=
  ⟨jacard_index_laws.2.2.1 Unit Unit (lpSoup []) (lpSoup []) rfl rfl,
   jacard_index_laws.2.2.2 Unit Unit (lpSoup [⟨.Var 1, false⟩]) (lpSoup [])
     (by decide) rfl⟩
